import Mathlib

/-!
# Verification of the twitch-streaming-analytics load / transform core

Shallow embedding of the incremental-load / deduplication subsystem
(`scripts/load_db.py`) and of the schema-evolving transform stage
(`scripts/transform.py`), together with proofs of the spec's claims
about them.

Conventions of the embedding:
* A pandas `DataFrame` of processed stream rows is a `List StreamRow`;
  the loader only ever inspects the `id` column and writes the
  `ingested_at` column, so `StreamRow` carries exactly those fields
  (all other columns are pass-through payload for the loader).
* `pd.read_csv` may produce a frame without an `id` column; `Frame`
  records whether the column is present (`hasId`).  Accessing a missing
  column in pandas raises `KeyError`; in the embedding this is the
  `Except.error` branch.  `run_load` runs inside `engine.begin()`, so an
  exception rolls the transaction back: an `Except.error` result means
  the store is unchanged.
* Wall-clock time is not observable in a shallow embedding; the value
  produced by `datetime.now().isoformat()` on line 35 of `load_db.py`
  is abstracted as the `now : String` argument of `run_load`.
-/

namespace TwitchETL

/-- One processed stream row as seen by the loader: the platform stream
identifier used for deduplication plus the ingestion-provenance column
the loader writes.  All other columns of the processed CSV are carried
along unchanged by the loader and are irrelevant to its control flow. -/
structure StreamRow where
  id : Int
  ingested_at : Option String
deriving DecidableEq, Repr

/-- A dataframe read from the processed CSV: its rows plus whether the
`id` column is present (`pd.read_csv` imposes no schema). -/
structure Frame where
  hasId : Bool
  rows : List StreamRow
deriving DecidableEq, Repr

/-- The persistent `streams` table: either absent (first run) or present
with its rows, mirroring the `sqlite_master` existence check on
lines 41-42 of `load_db.py`. -/
inductive Store where
  | absent : Store
  | table (rows : List StreamRow) : Store
deriving DecidableEq, Repr

/-- The rows currently persisted. -/
def storeRows : Store → List StreamRow
  | .absent => []
  | .table rows => rows

/-- What one `run_load` call reports: the resulting table contents and
the number of rows actually appended (the count printed on line 53, or
the full frame length on the bootstrap / replace paths). -/
structure LoadReport where
  store : List StreamRow
  appended : Nat
deriving DecidableEq, Repr

/-- Line 35 of `load_db.py`:
`df['ingested_at'] = datetime.now().isoformat()` — every row of the
batch gets the single timestamp taken at the start of the call. -/
def stampBatch (now : String) (rows : List StreamRow) : List StreamRow :=
  rows.map fun r => { r with ingested_at := some now }

/-- `run_load` from `load_db.py` (lines 23-67).
`preserve_history = true` is HISTORICAL mode: if the table exists, read
the distinct existing ids (line 46), keep only the batch rows whose id
is not already present (line 49) and append them (line 52); if the
table does not exist, bootstrap it from the whole stamped frame
(line 62).  `preserve_history = false` is REPLACE mode (line 66):
overwrite the table with the stamped frame.  Accessing `df['id']` on a
frame without that column raises; inside `engine.begin()` this aborts
the transaction with nothing persisted, modelled by `Except.error`. -/
def run_load (preserve_history : Bool) (now : String) (store : Store)
    (df : Frame) : Except String LoadReport :=
  let stamped := stampBatch now df.rows
  if preserve_history then
    match store with
    | .table rows =>
        if df.hasId then
          let existing_ids := (rows.map (·.id)).dedup
          let new_streams := stamped.filter fun r => !(existing_ids.contains r.id)
          .ok ⟨rows ++ new_streams, new_streams.length⟩
        else
          .error "KeyError: id"
    | .absent => .ok ⟨stamped, stamped.length⟩
  else
    .ok ⟨stamped, stamped.length⟩

/-- The store after one HISTORICAL-mode `run_load` call on a well-formed
batch (the `id` column present).  An erroring call leaves the store
unchanged (transaction rollback). -/
def loadHist (now : String) (store : Store) (batch : List StreamRow) : Store :=
  match run_load true now store ⟨true, batch⟩ with
  | .ok rep => .table rep.store
  | .error _ => store

/-- A sequence of HISTORICAL-mode loads, each with its own call
timestamp. -/
def loadSeq (store : Store) (batches : List (String × List StreamRow)) : Store :=
  batches.foldl (fun st p => loadHist p.1 st p.2) store

/-- The rows a HISTORICAL-mode load appends to an existing table:
`new_streams = df[~df['id'].isin(existing_ids)]` (line 49), computed on
the stamped frame against `SELECT DISTINCT id FROM streams` (line 46). -/
def newStreams (rows : List StreamRow) (now : String) (batch : List StreamRow) :
    List StreamRow :=
  (stampBatch now batch).filter fun r => !(((rows.map (·.id)).dedup).contains r.id)

theorem run_load_hist_table (now : String) (rows batch : List StreamRow) :
    run_load true now (.table rows) ⟨true, batch⟩ =
      .ok ⟨rows ++ newStreams rows now batch, (newStreams rows now batch).length⟩ :=
  rfl

theorem run_load_hist_absent (now : String) (b : Bool) (batch : List StreamRow) :
    run_load true now .absent ⟨b, batch⟩ =
      .ok ⟨stampBatch now batch, (stampBatch now batch).length⟩ :=
  rfl

theorem loadHist_absent (now : String) (batch : List StreamRow) :
    loadHist now .absent batch = .table (stampBatch now batch) :=
  rfl

theorem loadHist_table (now : String) (rows batch : List StreamRow) :
    loadHist now (.table rows) batch = .table (rows ++ newStreams rows now batch) :=
  rfl

theorem stampBatch_map_id (now : String) (b : List StreamRow) :
    (stampBatch now b).map (·.id) = b.map (·.id) := by
  simp [stampBatch]

theorem ingested_at_of_mem_stampBatch {now : String} {b : List StreamRow}
    {r : StreamRow} (h : r ∈ stampBatch now b) : r.ingested_at = some now := by
  rcases List.mem_map.1 h with ⟨r0, -, rfl⟩
  rfl

theorem mem_newStreams_iff {rows : List StreamRow} {now : String}
    {batch : List StreamRow} {r : StreamRow} :
    r ∈ newStreams rows now batch ↔
      r ∈ stampBatch now batch ∧ r.id ∉ rows.map (·.id) := by
  simp [newStreams, List.mem_filter, List.mem_dedup]

/-- Ids of rows appended in HISTORICAL mode are pairwise distinct when
the batch's ids are, and disjoint from the ids already in the table. -/
theorem nodup_loadHist {store : Store} {batch : List StreamRow} (now : String)
    (h0 : ((storeRows store).map (·.id)).Nodup)
    (hb : (batch.map (·.id)).Nodup) :
    ((storeRows (loadHist now store batch)).map (·.id)).Nodup := by
  cases store with
  | absent =>
      rw [loadHist_absent]
      simpa [storeRows, stampBatch_map_id] using hb
  | table rows =>
      rw [loadHist_table]
      simp only [storeRows, List.map_append] at h0 ⊢
      refine List.Nodup.append h0 ?_ ?_
      · exact (List.Sublist.map (fun r : StreamRow => r.id)
            (List.filter_sublist _)).nodup
          (by simpa [stampBatch_map_id] using hb)
      · intro a ha ha'
        rcases List.mem_map.1 ha' with ⟨r, hr, rfl⟩
        exact (mem_newStreams_iff.1 hr).2 ha

/-- After a HISTORICAL-mode load, every id of the batch is present in
the store (either it was already there, or its row was appended). -/
theorem mem_id_loadHist {batch : List StreamRow} {b : StreamRow}
    (now : String) (store : Store) (hb : b ∈ batch) :
    b.id ∈ (storeRows (loadHist now store batch)).map (·.id) := by
  have hstamp : ({ b with ingested_at := some now } : StreamRow) ∈ stampBatch now batch :=
    List.mem_map.2 ⟨b, hb, rfl⟩
  cases store with
  | absent =>
      rw [loadHist_absent]
      exact List.mem_map.2 ⟨_, hstamp, rfl⟩
  | table rows =>
      rw [loadHist_table]
      simp only [storeRows, List.map_append, List.mem_append]
      by_cases hmem : b.id ∈ rows.map (·.id)
      · exact Or.inl hmem
      · exact Or.inr (List.mem_map.2 ⟨_, mem_newStreams_iff.2 ⟨hstamp, hmem⟩, rfl⟩)

/-- The no-duplicate-id invariant is preserved by every sequence of
HISTORICAL-mode loads whose batches have internally unique ids. -/
theorem nodup_loadSeq {store : Store} {batches : List (String × List StreamRow)}
    (h0 : ((storeRows store).map (·.id)).Nodup)
    (hb : ∀ p ∈ batches, (p.2.map (·.id)).Nodup) :
    ((storeRows (loadSeq store batches)).map (·.id)).Nodup := by
  induction batches generalizing store with
  | nil => exact h0
  | cons p ps ih =>
      exact ih (nodup_loadHist p.1 h0 (hb p (List.mem_cons_self p ps)))
        fun q hq => hb q (List.mem_cons_of_mem p hq)

/-- Rows with a given id, counted as a filter length, agree with the
multiset count of that id among the projected ids. -/
theorem length_filter_id_eq_count (l : List StreamRow) (i : Int) :
    (l.filter fun r => r.id == i).length = (l.map (·.id)).count i := by
  rw [List.count, List.countP_map, List.countP_eq_length_filter]
  rfl

/-- C1.  For every store satisfying the no-duplicate invariant (this
includes the absent store of a first run) and every sequence of
HISTORICAL-mode loads whose batches have unique `id` values within
themselves, each `id` present in the resulting store occurs in exactly
one row: a record whose `id` already exists is never re-inserted,
however often overlapping batches are loaded. -/
theorem run_load_no_duplicate_ids (store : Store)
    (batches : List (String × List StreamRow))
    (h0 : ((storeRows store).map (·.id)).Nodup)
    (hb : ∀ p ∈ batches, (p.2.map (·.id)).Nodup) :
    ∀ i : Int, i ∈ (storeRows (loadSeq store batches)).map (·.id) →
      ((storeRows (loadSeq store batches)).filter fun r => r.id == i).length = 1 := by
  intro i hi
  have hnd := nodup_loadSeq h0 hb
  have hle := List.nodup_iff_count_le_one.1 hnd i
  have hpos : 0 < ((storeRows (loadSeq store batches)).map (·.id)).count i :=
    List.count_pos_iff.2 hi
  rw [length_filter_id_eq_count]
  omega

/-- Witness for C1 at a concrete overlapping pair of batches. -/
theorem run_load_no_duplicate_ids_witness :
    ((storeRows (loadSeq .absent
        [("t1", [⟨1, none⟩, ⟨2, none⟩]), ("t2", [⟨2, none⟩, ⟨3, none⟩])])).filter
      fun r => r.id == 2).length = 1 :=
  run_load_no_duplicate_ids .absent
    [("t1", [⟨1, none⟩, ⟨2, none⟩]), ("t2", [⟨2, none⟩, ⟨3, none⟩])]
    (by decide) (by decide) 2 (by decide)

/-- C2.  Loading the same batch twice in HISTORICAL mode: the second
call succeeds (no error), appends zero new rows, and leaves the table
rows — hence the final row count — exactly as after the first load.
This holds for every initial store (absent or present) and every batch,
and for arbitrary timestamps of the two calls. -/
theorem run_load_idempotent (now1 now2 : String) (store : Store)
    (batch : List StreamRow) :
    run_load true now2 (loadHist now1 store batch) ⟨true, batch⟩ =
      .ok ⟨storeRows (loadHist now1 store batch), 0⟩ := by
  obtain ⟨rows1, hrows1⟩ : ∃ rows1, loadHist now1 store batch = .table rows1 := by
    cases store with
    | absent => exact ⟨_, loadHist_absent now1 batch⟩
    | table rows => exact ⟨_, loadHist_table now1 rows batch⟩
  have hsub : ∀ b ∈ batch, b.id ∈ rows1.map (·.id) := by
    intro b hb
    have hmem := mem_id_loadHist now1 store hb
    rwa [hrows1] at hmem
  have hnil : newStreams rows1 now2 batch = [] := by
    refine List.filter_eq_nil_iff.2 ?_
    intro r hr
    rcases List.mem_map.1 hr with ⟨b, hb, rfl⟩
    simp [List.mem_dedup, hsub b hb]
  rw [hrows1, run_load_hist_table, hnil]
  simp [storeRows]

/-- C3.  Partial-overlap merge at the spec's concrete instance: store
with ids `{1,2,3}`, batch with ids `{3,4,5}` — the HISTORICAL-mode load
reports 2 rows appended and the resulting table holds exactly the rows
with ids `{1,2,3,4,5}` (the two appended rows carrying the call's
`ingested_at` stamp). -/
theorem run_load_partial_overlap_merge :
    run_load true "t" (.table [⟨1, none⟩, ⟨2, none⟩, ⟨3, none⟩])
        ⟨true, [⟨3, none⟩, ⟨4, none⟩, ⟨5, none⟩]⟩ =
      .ok ⟨[⟨1, none⟩, ⟨2, none⟩, ⟨3, none⟩, ⟨4, some "t"⟩, ⟨5, some "t"⟩], 2⟩ ∧
    ([⟨1, none⟩, ⟨2, none⟩, ⟨3, none⟩, ⟨4, some "t"⟩, ⟨5, some "t"⟩] :
        List StreamRow).map (·.id) = [1, 2, 3, 4, 5] :=
  ⟨rfl, rfl⟩

theorem run_load_replace (now : String) (store : Store) (df : Frame) :
    run_load false now store df =
      .ok ⟨stampBatch now df.rows, (stampBatch now df.rows).length⟩ :=
  rfl

/-- C4, counterexample.  The claim asserts a batch lacking the `id`
column makes the load fail with nothing persisted in *every* store
state.  On the bootstrap path (table absent) `run_load` never touches
`df['id']`: the load succeeds and persists the id-less batch. -/
theorem run_load_missing_id_bootstrap_persists :
    run_load true "t" .absent ⟨false, [⟨1, none⟩]⟩ = .ok ⟨[⟨1, some "t"⟩], 1⟩ :=
  rfl

/-- C4, amended.  Only when the target table already exists does a
batch lacking `id` abort the load before any write — via the column
access `df['id']` raising (a `KeyError`, not a dedicated
`ValidationError` type), with the surrounding transaction rolled back
so the store is unchanged.  When the table does not exist, no
validation occurs: the stamped batch is persisted as-is. -/
theorem run_load_missing_id_amended (now : String) (rows batch : List StreamRow) :
    run_load true now (.table rows) ⟨false, batch⟩ = .error "KeyError: id" ∧
    run_load true now .absent ⟨false, batch⟩ =
      .ok ⟨stampBatch now batch, (stampBatch now batch).length⟩ :=
  ⟨rfl, rfl⟩

/-- Every row a `run_load` call adds to the store (a row of the result
that was not among the prior rows) carries the call's timestamp as its
`ingested_at`, in both HISTORICAL and REPLACE modes. -/
theorem new_rows_stamped {preserve : Bool} {now : String} {store : Store}
    {batch : List StreamRow} {rep : LoadReport}
    (h : run_load preserve now store ⟨true, batch⟩ = .ok rep) :
    ∀ r ∈ rep.store, r ∉ storeRows store → r.ingested_at = some now := by
  intro r hr hnew
  cases preserve with
  | false =>
      rw [run_load_replace] at h
      cases h
      exact ingested_at_of_mem_stampBatch hr
  | true =>
      cases store with
      | absent =>
          rw [run_load_hist_absent] at h
          cases h
          exact ingested_at_of_mem_stampBatch hr
      | table rows =>
          rw [run_load_hist_table] at h
          cases h
          rcases List.mem_append.1 hr with hold | hnewrow
          · exact absurd hold hnew
          · exact ingested_at_of_mem_stampBatch (List.mem_filter.1 hnewrow).1

/-- C5.  The load stamps the batch first: every record of the stamped
frame carries the call time as `ingested_at` (the stamping is the very
first step, so the existence check and the dedup filter in HISTORICAL
mode already operate on stamped records — `newStreams` is by definition
a filter of `stampBatch`), and consequently every row a successful call
adds to the store carries that timestamp.  The wall-clock value itself
(`datetime.now().isoformat()`) is abstracted as `now`. -/
theorem run_load_stamps_ingested_at (preserve : Bool) (now : String)
    (store : Store) (batch : List StreamRow) :
    (∀ r ∈ stampBatch now batch, r.ingested_at = some now) ∧
    ∀ rep, run_load preserve now store ⟨true, batch⟩ = .ok rep →
      ∀ r ∈ rep.store, r ∉ storeRows store → r.ingested_at = some now :=
  ⟨fun _ hr => ingested_at_of_mem_stampBatch hr, fun _ h => new_rows_stamped h⟩

/-- Witness for C5: bootstrapping an absent store with one record. -/
theorem run_load_stamps_ingested_at_witness :
    (⟨1, some "t"⟩ : StreamRow).ingested_at = some "t" :=
  (run_load_stamps_ingested_at true "t" .absent [⟨1, none⟩]).2
    ⟨[⟨1, some "t"⟩], 1⟩ rfl ⟨1, some "t"⟩ (by decide) (by decide)

/-- C9.  All rows written by a single `run_load` call — in either
mode — carry one and the same `ingested_at` value, the timestamp taken
once at the start of the call before any branching; and two calls made
with different timestamps produce rows with different `ingested_at`
values. -/
theorem run_load_uniform_ingested_at :
    (∀ (preserve : Bool) (now : String) (store : Store)
        (batch : List StreamRow) (rep : LoadReport),
        run_load preserve now store ⟨true, batch⟩ = .ok rep →
        ∀ r1 ∈ rep.store, ∀ r2 ∈ rep.store,
          r1 ∉ storeRows store → r2 ∉ storeRows store →
          r1.ingested_at = r2.ingested_at) ∧
    (run_load true "t1" .absent ⟨true, [⟨1, none⟩]⟩ = .ok ⟨[⟨1, some "t1"⟩], 1⟩ ∧
     run_load true "t2" .absent ⟨true, [⟨1, none⟩]⟩ = .ok ⟨[⟨1, some "t2"⟩], 1⟩ ∧
     (⟨1, some "t1"⟩ : StreamRow).ingested_at ≠
       (⟨1, some "t2"⟩ : StreamRow).ingested_at) := by
  refine ⟨?_, rfl, rfl, by decide⟩
  intro preserve now store batch rep h r1 h1 r2 h2 hn1 hn2
  rw [new_rows_stamped h r1 h1 hn1, new_rows_stamped h r2 h2 hn2]

/-- Witness for C9: two rows appended by the same call share the stamp. -/
theorem run_load_uniform_ingested_at_witness :
    (⟨1, some "t"⟩ : StreamRow).ingested_at =
      (⟨2, some "t"⟩ : StreamRow).ingested_at :=
  run_load_uniform_ingested_at.1 true "t" .absent [⟨1, none⟩, ⟨2, none⟩]
    ⟨[⟨1, some "t"⟩, ⟨2, some "t"⟩], 2⟩ rfl
    ⟨1, some "t"⟩ (by decide) ⟨2, some "t"⟩ (by decide) (by decide) (by decide)

/-!
## Transform stage (`scripts/transform.py`)

The game-name join (lines 77-80): `s.merge(g[["game_id","game_name"]],
how="left", on="game_id")` followed by
`s["game_name"] = s["game_name"].fillna("Unknown")`.  A raw stream row
is collapsed to its join key plus an opaque payload standing for all
pass-through columns; a reference row is its key plus a possibly-null
name (a fetched row may lack the `name` field, which pandas represents
as NaN and `fillna` also maps to `"Unknown"`).
-/

/-- A stream row at the join step: the stream identifier standing for
all pass-through columns, and the normalized string `game_id` key. -/
structure SRow where
  id : String
  game_id : String
deriving DecidableEq, Repr

/-- A game-reference row (`g` after the renames on line 41/67):
`game_id` key and possibly-missing `game_name`. -/
structure GRow where
  game_id : String
  game_name : Option String
deriving DecidableEq, Repr

/-- An output row of the join: the stream row plus its resolved
`game_name` column — a total `String`, never null, because `fillna`
runs on the merge result. -/
structure JRow where
  row : SRow
  game_name : String
deriving DecidableEq, Repr

/-- Lines 77-80 of `transform.py`: pandas left merge on `game_id`
followed by `fillna("Unknown")`.  A stream row with no matching
reference row yields exactly one output row with `game_name =
"Unknown"`; a stream row with matching reference rows yields one output
row per match (pandas semantics for duplicate right keys), each taking
the match's name, with a null name also filled as `"Unknown"`. -/
def joinGameNames (s : List SRow) (g : List GRow) : List JRow :=
  s.flatMap fun r =>
    match g.filter (fun gr => gr.game_id == r.game_id) with
    | [] => [⟨r, "Unknown"⟩]
    | ms => ms.map fun gr => ⟨r, gr.game_name.getD "Unknown"⟩

/-- C6.  Every output row of the transform's left join whose `game_id`
has no match in the (possibly augmented) reference set has
`game_name = "Unknown"` — and, by the type of `JRow.game_name`, the
field is a total string: never null and never an exception. -/
theorem join_unknown_game_fallback (s : List SRow) (g : List GRow) (j : JRow)
    (hj : j ∈ joinGameNames s g)
    (hno : ∀ gr ∈ g, gr.game_id ≠ j.row.game_id) :
    j.game_name = "Unknown" := by
  rcases List.mem_flatMap.1 hj with ⟨r, -, hr⟩
  revert hr
  cases hfil : g.filter (fun gr => gr.game_id == r.game_id) with
  | nil =>
      intro hr
      rcases List.mem_singleton.1 hr with rfl
      rfl
  | cons m ms =>
      intro hr
      rcases List.mem_map.1 hr with ⟨gr, hgr, rfl⟩
      have hgr' : gr ∈ g.filter (fun gr => gr.game_id == r.game_id) := by
        rw [hfil]; exact hgr
      rcases List.mem_filter.1 hgr' with ⟨hgmem, hkey⟩
      exact absurd (eq_of_beq hkey) (hno gr hgmem)

/-- Witness for C6: a single stream row whose id is absent from the
reference set. -/
theorem join_unknown_game_fallback_witness :
    (⟨⟨"s1", "g9"⟩, "Unknown"⟩ : JRow).game_name = "Unknown" :=
  join_unknown_game_fallback [⟨"s1", "g9"⟩] [⟨"g1", some "Zelda"⟩]
    ⟨⟨"s1", "g9"⟩, "Unknown"⟩ (by decide) (by decide)

/-- With pairwise-distinct reference keys, the filter used by the join
matches at most one reference row. -/
theorem length_filter_key_le_one {g : List GRow} (hg : (g.map (·.game_id)).Nodup)
    (k : String) : (g.filter fun gr => gr.game_id == k).length ≤ 1 := by
  have := List.nodup_iff_count_le_one.1 hg k
  rw [List.count, List.countP_map, List.countP_eq_length_filter] at this
  exact this

/-- C10.  The transform's left join preserves the stream row count when
each `game_id` occurs in at most one reference row, and fails to
preserve it in general: a reference table repeating a key duplicates
the matching stream rows. -/
theorem join_row_count :
    (∀ (s : List SRow) (g : List GRow), (g.map (·.game_id)).Nodup →
      (joinGameNames s g).length = s.length) ∧
    (∃ (s : List SRow) (g : List GRow),
      ¬(g.map (·.game_id)).Nodup ∧ (joinGameNames s g).length ≠ s.length) := by
  constructor
  · intro s g hg
    induction s with
    | nil => rfl
    | cons r rs ih =>
        simp only [joinGameNames] at ih ⊢
        rw [List.flatMap_cons, List.length_append, List.length_cons, ih]
        have hle := length_filter_key_le_one hg r.game_id
        cases hfil : g.filter (fun gr => gr.game_id == r.game_id) with
        | nil =>
            show 1 + rs.length = rs.length + 1
            omega
        | cons m ms =>
            rw [hfil] at hle
            have hone : (m :: ms).length = 1 :=
              Nat.le_antisymm hle (Nat.succ_le_succ (Nat.zero_le _))
            show ((m :: ms).map fun gr =>
                (⟨r, gr.game_name.getD "Unknown"⟩ : JRow)).length + rs.length =
              rs.length + 1
            rw [List.length_map, hone]
            omega
  · refine ⟨[⟨"s1", "g1"⟩], [⟨"g1", some "A"⟩, ⟨"g1", some "B"⟩], by decide, by decide⟩

/-- Witness for C10: a two-row batch against a duplicate-free
reference table keeps its row count. -/
theorem join_row_count_witness :
    (joinGameNames [⟨"s1", "g1"⟩, ⟨"s2", "g9"⟩]
      [⟨"g1", some "A"⟩, ⟨"g2", some "B"⟩]).length = 2 :=
  join_row_count.1 [⟨"s1", "g1"⟩, ⟨"s2", "g9"⟩]
    [⟨"g1", some "A"⟩, ⟨"g2", some "B"⟩] (by decide)

/-!
## Temporal derivation (`transform.py` lines 27-35)

`pd.to_datetime(..., errors="coerce", utc=True)` followed by
`dt.hour`, `dt.day_name()` and `isin(["Saturday", "Sunday"])`.  The
parser below models the ISO-8601 Zulu form the Helix API emits
(`YYYY-MM-DDTHH:MM:SSZ`); a string not of that form coerces to the
null timestamp (`none`, pandas `NaT`), for which the derived hour and
weekday are null and `is_weekend` is `false` (`isin` on NaN).  The
weekday name is computed with the standard proleptic-Gregorian
civil-from-days reckoning, which is what `day_name()` returns.
-/

/-- A parsed UTC timestamp. -/
structure Timestamp where
  year : Nat
  month : Nat
  day : Nat
  hour : Nat
  minute : Nat
  second : Nat
deriving DecidableEq, Repr

/-- Decimal digit value of a character, if it is a digit. -/
def digitVal (c : Char) : Option Nat :=
  if c.isDigit then some (c.toNat - 48) else none

/-- A list of decimal digit characters as a number. -/
def digitsToNat (cs : List Char) : Option Nat :=
  cs.foldl (fun acc c => acc.bind fun n => (digitVal c).map fun d => n * 10 + d)
    (some 0)

/-- Parse an ISO-8601 `YYYY-MM-DDTHH:MM:SSZ` string (the `started_at`
format of the Helix API) as a UTC timestamp; anything else coerces to
`none`, as `pd.to_datetime(..., errors="coerce")` yields `NaT`. -/
def parseIso (str : String) : Option Timestamp :=
  match str.toList with
  | [y1, y2, y3, y4, '-', mo1, mo2, '-', d1, d2, 'T',
     h1, h2, ':', mi1, mi2, ':', s1, s2, 'Z'] =>
      (digitsToNat [y1, y2, y3, y4]).bind fun y =>
      (digitsToNat [mo1, mo2]).bind fun mo =>
      (digitsToNat [d1, d2]).bind fun d =>
      (digitsToNat [h1, h2]).bind fun h =>
      (digitsToNat [mi1, mi2]).bind fun mi =>
      (digitsToNat [s1, s2]).bind fun s =>
      if 1 ≤ mo ∧ mo ≤ 12 ∧ 1 ≤ d ∧ d ≤ 31 ∧ h ≤ 23 ∧ mi ≤ 59 ∧ s ≤ 59 then
        some ⟨y, mo, d, h, mi, s⟩
      else
        none
  | _ => none

/-- Days of the proleptic Gregorian calendar from the era origin
0000-03-01, the standard civil-from-days reckoning (1970-01-01 maps to
719468, a Thursday). -/
def daysFromCivil (y m d : Nat) : Nat :=
  let yAdj := if m ≤ 2 then y - 1 else y
  let era := yAdj / 400
  let yoe := yAdj % 400
  let mp := (m + 9) % 12
  let doy := (153 * mp + 2) / 5 + d - 1
  let doe := yoe * 365 + yoe / 4 - yoe / 100 + doy
  era * 146097 + doe

/-- `Series.dt.day_name()`: the English weekday name of a date. -/
def dayName (t : Timestamp) : String :=
  match daysFromCivil t.year t.month t.day % 7 with
  | 0 => "Wednesday"
  | 1 => "Thursday"
  | 2 => "Friday"
  | 3 => "Saturday"
  | 4 => "Sunday"
  | 5 => "Monday"
  | _ => "Tuesday"

/-- The three derived temporal columns of a stream row. -/
structure TemporalFeats where
  hour_of_day : Option Nat
  weekday : Option String
  is_weekend : Bool
deriving DecidableEq, Repr

/-- Lines 28-31 of `transform.py` applied to one row: hour and weekday
of the parsed timestamp, `is_weekend = weekday.isin(["Saturday",
"Sunday"])`; a row whose timestamp coerced to `NaT` keeps null hour and
weekday and `is_weekend = false`. -/
def deriveTemporal (started_at : Option Timestamp) : TemporalFeats :=
  match started_at with
  | some t => ⟨some t.hour, some (dayName t),
      (["Saturday", "Sunday"] : List String).contains (dayName t)⟩
  | none => ⟨none, none, false⟩

/-- The temporal features derived from a raw `started_at` string. -/
def temporalOfString (str : String) : TemporalFeats :=
  deriveTemporal (parseIso str)

/-- C7.  The record with `started_at = 2024-03-09T14:30:00Z` (a
Saturday) derives `hour_of_day = 14`, `weekday = "Saturday"`,
`is_weekend = true`; and in general `is_weekend` is true exactly when
the derived weekday is Saturday or Sunday. -/
theorem transform_temporal_derivation :
    temporalOfString "2024-03-09T14:30:00Z" = ⟨some 14, some "Saturday", true⟩ ∧
    ∀ str : String, (temporalOfString str).is_weekend = true ↔
      ((temporalOfString str).weekday = some "Saturday" ∨
        (temporalOfString str).weekday = some "Sunday") := by
  refine ⟨by decide, fun str => ?_⟩
  unfold temporalOfString deriveTemporal
  cases parseIso str with
  | none => simp
  | some t =>
      simp only [List.contains_cons, List.elem_eq_mem, Bool.or_eq_true,
        beq_iff_eq, Option.some.injEq, decide_eq_true_eq, List.mem_cons,
        List.not_mem_nil, or_false]

/-!
## Historical summary (`load_db.py` lines 82-143)

`get_historical_summary` inspects the physical table: for schema
tolerance it must look at the actual column layout, so here the table
is its column list plus rows as column-name/value cells.  Of the
aggregates the SQL query computes, the model carries the row count and
the two ingestion aggregates — the fields the schema branch changes;
the date/uniqueness aggregates are computed identically on both
branches and play no part in the claim.
-/

/-- The physical `streams` table as the summary query sees it: the
column layout (`PRAGMA table_info`) and the rows as cells keyed by
column name. -/
structure DbTable where
  columns : List String
  rows : List (List (String × String))
deriving DecidableEq, Repr

/-- The non-null values of one column. -/
def colValues (t : DbTable) (c : String) : List String :=
  t.rows.filterMap fun row => row.lookup c

/-- SQL `MIN` over a text column: least value, `NULL` (printed `None`)
on no rows. -/
def sqlMin (vals : List String) : String :=
  match vals with
  | [] => "None"
  | v :: vs => vs.foldl (fun a b => if b < a then b else a) v

/-- SQL `MAX` over a text column. -/
def sqlMax (vals : List String) : String :=
  match vals with
  | [] => "None"
  | v :: vs => vs.foldl (fun a b => if a < b then b else a) v

/-- The summary fields whose computation depends on the schema branch:
`COUNT(*)` plus the two ingestion aggregates (`MIN(ingested_at)`,
`MAX(ingested_at)` when the column exists, the literal `'N/A'`
otherwise). -/
structure HistSummary where
  total_streams : Nat
  first_ingestion : String
  last_ingestion : String
deriving DecidableEq, Repr

/-- Outcome of `get_historical_summary`: either the empty-database
report (line 90) or a computed summary. -/
inductive SummaryResult where
  | noData : SummaryResult
  | ok (s : HistSummary) : SummaryResult
deriving DecidableEq, Repr

/-- `get_historical_summary` from `load_db.py` (lines 82-143): report
no-data if the table is absent; otherwise detect at runtime whether the
optional `ingested_at` column exists (lines 94-96) and run the
matching aggregate query — real `MIN`/`MAX` when it does, the `'N/A'`
literals when it does not (lines 99-124). -/
def get_historical_summary (store : Option DbTable) : SummaryResult :=
  match store with
  | none => .noData
  | some t =>
      let has_ingested_at := t.columns.contains "ingested_at"
      if has_ingested_at then
        .ok ⟨t.rows.length, sqlMin (colValues t "ingested_at"),
          sqlMax (colValues t "ingested_at")⟩
      else
        .ok ⟨t.rows.length, "N/A", "N/A"⟩

/-- C8.  Against every store whose `streams` table lacks the optional
`ingested_at` column, the summary operation detects the absence,
succeeds (returns a report, raising no error), and reports both
ingestion fields as the explicit `"N/A"` marker rather than assuming
the column exists. -/
theorem summary_schema_tolerance (t : DbTable)
    (h : "ingested_at" ∉ t.columns) :
    get_historical_summary (some t) = .ok ⟨t.rows.length, "N/A", "N/A"⟩ := by
  have hc : t.columns.contains "ingested_at" = false := by
    simpa using h
  simp only [get_historical_summary]
  rw [hc]
  rfl

/-- Witness for C8: a legacy table with no `ingested_at` column. -/
theorem summary_schema_tolerance_witness :
    get_historical_summary
        (some ⟨["id", "user_id", "game_id", "started_at"],
          [[("id", "1"), ("started_at", "2024-03-09T14:30:00Z")]]⟩) =
      .ok ⟨1, "N/A", "N/A"⟩ :=
  summary_schema_tolerance
    ⟨["id", "user_id", "game_id", "started_at"],
      [[("id", "1"), ("started_at", "2024-03-09T14:30:00Z")]]⟩ (by decide)

end TwitchETL
